import Mathlib

/-!
Shallow embedding of the personal secret-management backend
(`backend/server.py`): the session/authentication layer, the app-lock
guard, the field-level cipher, and the ownership-scoped CRUD + search
handlers over the three vault record kinds (Website, Application, Note).

The document store is modelled as in-memory lists carried in a `DB`
record; each HTTP handler becomes a pure function from the pre-state
(plus the request context and the current time) to a result and the
post-state.  Machine-generated values (UUIDs, the current timestamp,
the bcrypt salt) are passed as explicit parameters.  Timestamps are
naturals.  External library code (the Fernet cipher, base64, bcrypt,
Mongo query execution) is not part of the repository; it is modelled
from the spec's boundary contracts, as noted on each such definition.
-/

set_option maxRecDepth 20000

namespace RemindSave

/-! ### Cipher: modelled Fernet token layer -/

/-- Constant marker opening every modelled Fernet token (real Fernet
tokens carry the fixed version byte `0x80`, so their transport encoding
starts with a fixed marker as well). -/
def fernetMagic : String := "gAAAA"

/-- Modelled from the spec: the external Fernet cipher together with the
base64 transport used by `encrypt_data`/`decrypt_data` (library code,
not in the repository).  The boundary contract (spec 4.1): `encrypt`
produces a token from which `decrypt` under the same key recovers the
plaintext, while a malformed token is rejected.  A token is modelled as
the marker, the key material, and the payload, concatenated. -/
structure Fernet where
  key : String
deriving DecidableEq

/-- Modelled Fernet encryption: prepend the marker and the key. -/
def Fernet.encryptTok (c : Fernet) (s : String) : String :=
  ⟨fernetMagic.data ++ c.key.data ++ s.data⟩

/-- Modelled Fernet decryption: succeeds exactly when the token opens
with the marker and this cipher's key, returning the remaining payload;
any other input is rejected (`none`), as a wrong-key or malformed token
is rejected by real Fernet. -/
def Fernet.decryptTok? (c : Fernet) (t : String) : Option String :=
  let pre := fernetMagic.data ++ c.key.data
  if t.data.take pre.length = pre then some ⟨t.data.drop pre.length⟩ else none

/-- `encrypt_data` (server.py:112): empty input passes through, other
input is encrypted under the process cipher. -/
def encrypt_data (c : Fernet) (data : String) : String :=
  if data = "" then data else c.encryptTok data

/-- `decrypt_data` (server.py:117): empty input passes through; the
decryption attempt sits in a `try` block whose bare `except` returns the
input unchanged, so a failed decryption yields the input itself. -/
def decrypt_data (c : Fernet) (encrypted_data : String) : String :=
  if encrypted_data = "" then encrypted_data
  else
    match c.decryptTok? encrypted_data with
    | some s => s
    | none => encrypted_data

/-! ### PasswordHasher: modelled bcrypt -/

/-- Modelled from the spec: bcrypt password hashing (`hash_password`,
server.py:125, delegating to the external bcrypt library).  The boundary
contract (spec 4.2): a salted one-way hash such that `verify(p, hash(p))`
holds and `verify(q, hash(p))` fails for `q ≠ p`.  The random salt drawn
by `gensalt` is an explicit parameter; the hash is modelled as the salt
followed by the secret. -/
def hash_password (salt : Char) (password : String) : String :=
  ⟨salt :: password.data⟩

/-- Modelled from the spec: bcrypt verification (`verify_password`,
server.py:128): strips the salt and compares. -/
def verify_password (password : String) (hashed : String) : Bool :=
  match hashed.data with
  | [] => false
  | _ :: rest => decide (rest = password.data)

/-! ### Data model -/

/-- `User` (server.py:40). -/
structure User where
  id : String
  email : String
  name : String
  picture : String
  app_lock_hash : Option String
  created_at : Nat
deriving DecidableEq

/-- `UserSession` (server.py:48). -/
structure UserSession where
  id : String
  user_id : String
  session_token : String
  expires_at : Nat
  created_at : Nat
deriving DecidableEq

/-- `WebsiteEntry` (server.py:55). -/
structure WebsiteEntry where
  id : String
  user_id : String
  name : String
  link : String
  purpose : String
  login_id : Option String
  password : Option String
  created_at : Nat
  updated_at : Nat
deriving DecidableEq

/-- `AppEntry` (server.py:66). -/
structure AppEntry where
  id : String
  user_id : String
  app_name : String
  purpose : String
  username : Option String
  password : Option String
  created_at : Nat
  updated_at : Nat
deriving DecidableEq

/-- `OtherNote` (server.py:76). -/
structure OtherNote where
  id : String
  user_id : String
  title : String
  content : String
  created_at : Nat
  updated_at : Nat
deriving DecidableEq

/-- `WebsiteEntryCreate` (server.py:85). -/
structure WebsiteEntryCreate where
  name : String
  link : String
  purpose : String
  login_id : Option String
  password : Option String
deriving DecidableEq

/-- `AppEntryCreate` (server.py:92). -/
structure AppEntryCreate where
  app_name : String
  purpose : String
  username : Option String
  password : Option String
deriving DecidableEq

/-- `OtherNoteCreate` (server.py:98). -/
structure OtherNoteCreate where
  title : String
  content : String
deriving DecidableEq

/-- The Mongo database: one list per collection used by the server. -/
structure DB where
  users : List User
  user_sessions : List UserSession
  website_entries : List WebsiteEntry
  app_entries : List AppEntry
  other_notes : List OtherNote
deriving DecidableEq

/-- An `HTTPException` raised by a handler. -/
structure HTTPError where
  status_code : Nat
  detail : String
deriving DecidableEq

/-- The parts of the incoming request the handlers consult: the
`session_token` cookie and the `Authorization` header. -/
structure RequestCtx where
  cookie_session_token : Option String
  authorization : Option String
deriving DecidableEq

/-! ### Document-store primitives -/

/-- Mongo `update_one`: rewrite the first document matching `p` with `f`
and report the matched count (0 or 1). -/
def updateFirst (p : α → Bool) (f : α → α) : List α → List α × Nat
  | [] => ([], 0)
  | a :: l =>
    if p a then (f a :: l, 1)
    else
      let r := updateFirst p f l
      (a :: r.1, r.2)

/-- Mongo `delete_one`: remove the first document matching `p` and
report the deleted count (0 or 1). -/
def deleteFirst (p : α → Bool) : List α → List α × Nat
  | [] => ([], 0)
  | a :: l =>
    if p a then (l, 1)
    else
      let r := deleteFirst p l
      (a :: r.1, r.2)

/-- The comparator of `.sort("created_at", -1)`: newest created first. -/
def newestFirst (created : α → Nat) (a b : α) : Bool :=
  decide (created b ≤ created a)

/-- Insert `a` into `l` before the first element `b` with `le a b`. -/
def insertLe (le : α → α → Bool) (a : α) : List α → List α
  | [] => [a]
  | b :: l => if le a b then a :: b :: l else b :: insertLe le a l

/-- Model of the Mongo cursor `.sort(...)`: an insertion sort by the
boolean comparator `le` (structurally recursive so that the model
evaluates on concrete stores). -/
def mongoSort (le : α → α → Bool) : List α → List α
  | [] => []
  | a :: l => insertLe le a (mongoSort le l)

/-- Python truthiness of an optional string: `None` and `""` are falsy. -/
def truthy : Option String → Bool
  | none => false
  | some s => if s = "" then false else true

/-- Modelled from the spec's out-of-scope boundary: Mongo
`$regex`-with-`$options: "i"` matching, specified at the store boundary
(spec 4.5) as case-insensitive substring containment. -/
def containsCI (haystack pat : String) : Bool :=
  decide ((pat.data.map Char.toLower) <:+: (haystack.data.map Char.toLower))

/-! ### Session resolution -/

/-- Python `str.split(sep)` with an explicit separator: splits on every
occurrence, keeping empty chunks. -/
def pySplit (sep : Char) : List Char → List (List Char)
  | [] => [[]]
  | c :: rest =>
    if c = sep then [] :: pySplit sep rest
    else
      match pySplit sep rest with
      | [] => [[c]]
      | g :: gs => (c :: g) :: gs

/-- The marker tested by `authorization.startswith("Bearer ")`. -/
def bearerMarker : String := "Bearer "

/-- The token-extraction preamble of `get_current_user`
(server.py:131-142): the cookie wins when truthy; otherwise a
`Bearer `-opening `Authorization` header contributes `split(" ")[1]`;
a final falsy token means no token was presented. -/
def presented_token (req : RequestCtx) : Option String :=
  let fromCookie := req.cookie_session_token
  let tok :=
    if truthy fromCookie then fromCookie
    else
      match req.authorization with
      | some a =>
        if (truthy (some a) && bearerMarker.data.isPrefixOf a.data) = true then
          some (String.mk (((pySplit ' ' a.data).get? 1).getD []))
        else fromCookie
      | none => fromCookie
  if truthy tok then tok else none

/-- `get_current_user` (server.py:131): resolve the presented token to a
session, reject it when the current time is past the expiry
(`datetime.now(timezone.utc) > session["expires_at"]`), then resolve the
session's owner; every failure is the uniform `None`. -/
def get_current_user (db : DB) (now : Nat) (req : RequestCtx) : Option User :=
  match presented_token req with
  | none => none
  | some session_token =>
    match db.user_sessions.find? (fun s => decide (s.session_token = session_token)) with
    | none => none
    | some session =>
      if now > session.expires_at then none
      else
        match db.users.find? (fun u => decide (u.id = session.user_id)) with
        | none => none
        | some user => some user

/-! ### Auth endpoints -/

/-- `logout` (server.py:208): when the caller resolves to a user, delete
every session matching the *cookie* token (the header is never
consulted here); always answer 200. -/
def logout (db : DB) (now : Nat) (req : RequestCtx) : Except HTTPError String × DB :=
  let db' :=
    match get_current_user db now req with
    | some _ =>
      match req.cookie_session_token with
      | some session_token =>
        if truthy (some session_token) then
          { db with
            user_sessions :=
              db.user_sessions.filter
                (fun s => !(decide (s.session_token = session_token))) }
        else db
      | none => db
    | none => db
  (.ok "Logged out successfully", db')

/-- `set_app_lock` (server.py:227): hash the submitted password with a
fresh salt and store it on the caller's user document. -/
def set_app_lock (db : DB) (now : Nat) (req : RequestCtx) (salt : Char)
    (password : String) : Except HTTPError String × DB :=
  match get_current_user db now req with
  | none => (.error ⟨401, "Not authenticated"⟩, db)
  | some user =>
    let hashed := hash_password salt password
    let r := updateFirst (fun u => decide (u.id = user.id))
      (fun u => { u with app_lock_hash := some hashed }) db.users
    (.ok "App lock set successfully", { db with users := r.1 })

/-- `verify_app_lock` (server.py:240): read-only; 400 when no hash is
configured or the password does not verify. -/
def verify_app_lock (db : DB) (now : Nat) (req : RequestCtx)
    (password : String) : Except HTTPError String :=
  match get_current_user db now req with
  | none => .error ⟨401, "Not authenticated"⟩
  | some user =>
    if truthy user.app_lock_hash = false then .error ⟨400, "No app lock set"⟩
    else if verify_password password (user.app_lock_hash.getD "") = false then
      .error ⟨400, "Invalid password"⟩
    else .ok "App lock verified"

/-- `remove_app_lock` (server.py:254): same guards as verify, then
`$unset` the hash on the caller's user document. -/
def remove_app_lock (db : DB) (now : Nat) (req : RequestCtx)
    (password : String) : Except HTTPError String × DB :=
  match get_current_user db now req with
  | none => (.error ⟨401, "Not authenticated"⟩, db)
  | some user =>
    if truthy user.app_lock_hash = false then (.error ⟨400, "No app lock set"⟩, db)
    else if verify_password password (user.app_lock_hash.getD "") = false then
      (.error ⟨400, "Invalid password"⟩, db)
    else
      let r := updateFirst (fun u => decide (u.id = user.id))
        (fun u => { u with app_lock_hash := none }) db.users
      (.ok "App lock removed", { db with users := r.1 })

/-! ### Website entries -/

/-- The `$or` clause of the website search query (server.py:303). -/
def websiteMatches (search : String) (e : WebsiteEntry) : Bool :=
  containsCI e.name search || containsCI e.link search || containsCI e.purpose search

/-- The full website query: owner scoping always, the `$or` search
clause only when a truthy search term is given (`if search:`). -/
def websiteQuery (uid : String) (search : Option String) (e : WebsiteEntry) : Bool :=
  decide (e.user_id = uid) &&
    (if truthy search then websiteMatches (search.getD "") e else true)

/-- The response-side decryption step applied to a website entry
(`if entry.get("password")`). -/
def decryptWebsite (c : Fernet) (e : WebsiteEntry) : WebsiteEntry :=
  if truthy e.password then
    { e with password := some (decrypt_data c (e.password.getD "")) }
  else e

/-- `create_website_entry` (server.py:273). -/
def create_website_entry (c : Fernet) (db : DB) (now : Nat) (req : RequestCtx)
    (newId : String) (entry : WebsiteEntryCreate) :
    Except HTTPError WebsiteEntry × DB :=
  match get_current_user db now req with
  | none => (.error ⟨401, "Not authenticated"⟩, db)
  | some user =>
    let pw := if truthy entry.password
      then some (encrypt_data c (entry.password.getD "")) else entry.password
    let website_entry : WebsiteEntry :=
      { id := newId, user_id := user.id, name := entry.name, link := entry.link,
        purpose := entry.purpose, login_id := entry.login_id, password := pw,
        created_at := now, updated_at := now }
    let db' := { db with website_entries := db.website_entries ++ [website_entry] }
    (.ok (decryptWebsite c website_entry), db')

/-- `get_website_entries` (server.py:295): filter by the query, sort
newest-created first, truncate to 1000 (`to_list(1000)`), decrypt
passwords on the way out. -/
def get_website_entries (c : Fernet) (db : DB) (now : Nat) (req : RequestCtx)
    (search : Option String) : Except HTTPError (List WebsiteEntry) :=
  match get_current_user db now req with
  | none => .error ⟨401, "Not authenticated"⟩
  | some user =>
    let entries := (((db.website_entries.filter (websiteQuery user.id search)) |> mongoSort
      (newestFirst WebsiteEntry.created_at)).take 1000).map (decryptWebsite c)
    .ok entries

/-- `update_website_entry` (server.py:318): full-field replace scoped by
`(id, user_id)`; 404 when nothing matched; re-read and decrypt for the
response (the re-read cannot miss in this sequential model, the dead
branch is a 500 as an unhandled exception would be). -/
def update_website_entry (c : Fernet) (db : DB) (now : Nat) (req : RequestCtx)
    (entry_id : String) (entry_update : WebsiteEntryCreate) :
    Except HTTPError WebsiteEntry × DB :=
  match get_current_user db now req with
  | none => (.error ⟨401, "Not authenticated"⟩, db)
  | some user =>
    let pw := if truthy entry_update.password
      then some (encrypt_data c (entry_update.password.getD "")) else entry_update.password
    let r := updateFirst
      (fun e => decide (e.id = entry_id) && decide (e.user_id = user.id))
      (fun e =>
        { e with name := entry_update.name, link := entry_update.link,
                 purpose := entry_update.purpose, login_id := entry_update.login_id,
                 password := pw, updated_at := now })
      db.website_entries
    let db' := { db with website_entries := r.1 }
    if r.2 = 0 then (.error ⟨404, "Website entry not found"⟩, db')
    else
      match db'.website_entries.find?
        (fun e => decide (e.id = entry_id) && decide (e.user_id = user.id)) with
      | some updated_entry => (.ok (decryptWebsite c updated_entry), db')
      | none => (.error ⟨500, "Internal Server Error"⟩, db')

/-- `delete_website_entry` (server.py:347). -/
def delete_website_entry (db : DB) (now : Nat) (req : RequestCtx)
    (entry_id : String) : Except HTTPError String × DB :=
  match get_current_user db now req with
  | none => (.error ⟨401, "Not authenticated"⟩, db)
  | some user =>
    let r := deleteFirst
      (fun e => decide (e.id = entry_id) && decide (e.user_id = user.id))
      db.website_entries
    let db' := { db with website_entries := r.1 }
    if r.2 = 0 then (.error ⟨404, "Website entry not found"⟩, db')
    else (.ok "Website entry deleted successfully", db')

/-! ### App entries -/

/-- The `$or` clause of the app search query (server.py:390). -/
def appMatches (search : String) (e : AppEntry) : Bool :=
  containsCI e.app_name search || containsCI e.purpose search ||
    containsCI (e.username.getD "") search

/-- The full app query (owner scoping plus optional search). -/
def appQuery (uid : String) (search : Option String) (e : AppEntry) : Bool :=
  decide (e.user_id = uid) &&
    (if truthy search then appMatches (search.getD "") e else true)

/-- The response-side decryption step applied to an app entry. -/
def decryptApp (c : Fernet) (e : AppEntry) : AppEntry :=
  if truthy e.password then
    { e with password := some (decrypt_data c (e.password.getD "")) }
  else e

/-- `create_app_entry` (server.py:360). -/
def create_app_entry (c : Fernet) (db : DB) (now : Nat) (req : RequestCtx)
    (newId : String) (entry : AppEntryCreate) :
    Except HTTPError AppEntry × DB :=
  match get_current_user db now req with
  | none => (.error ⟨401, "Not authenticated"⟩, db)
  | some user =>
    let pw := if truthy entry.password
      then some (encrypt_data c (entry.password.getD "")) else entry.password
    let app_entry : AppEntry :=
      { id := newId, user_id := user.id, app_name := entry.app_name,
        purpose := entry.purpose, username := entry.username, password := pw,
        created_at := now, updated_at := now }
    let db' := { db with app_entries := db.app_entries ++ [app_entry] }
    (.ok (decryptApp c app_entry), db')

/-- `get_app_entries` (server.py:382). -/
def get_app_entries (c : Fernet) (db : DB) (now : Nat) (req : RequestCtx)
    (search : Option String) : Except HTTPError (List AppEntry) :=
  match get_current_user db now req with
  | none => .error ⟨401, "Not authenticated"⟩
  | some user =>
    let entries := (((db.app_entries.filter (appQuery user.id search)) |> mongoSort
      (newestFirst AppEntry.created_at)).take 1000).map (decryptApp c)
    .ok entries

/-- `update_app_entry` (server.py:405). -/
def update_app_entry (c : Fernet) (db : DB) (now : Nat) (req : RequestCtx)
    (entry_id : String) (entry_update : AppEntryCreate) :
    Except HTTPError AppEntry × DB :=
  match get_current_user db now req with
  | none => (.error ⟨401, "Not authenticated"⟩, db)
  | some user =>
    let pw := if truthy entry_update.password
      then some (encrypt_data c (entry_update.password.getD "")) else entry_update.password
    let r := updateFirst
      (fun e => decide (e.id = entry_id) && decide (e.user_id = user.id))
      (fun e =>
        { e with app_name := entry_update.app_name, purpose := entry_update.purpose,
                 username := entry_update.username, password := pw, updated_at := now })
      db.app_entries
    let db' := { db with app_entries := r.1 }
    if r.2 = 0 then (.error ⟨404, "App entry not found"⟩, db')
    else
      match db'.app_entries.find?
        (fun e => decide (e.id = entry_id) && decide (e.user_id = user.id)) with
      | some updated_entry => (.ok (decryptApp c updated_entry), db')
      | none => (.error ⟨500, "Internal Server Error"⟩, db')

/-- `delete_app_entry` (server.py:434). -/
def delete_app_entry (db : DB) (now : Nat) (req : RequestCtx)
    (entry_id : String) : Except HTTPError String × DB :=
  match get_current_user db now req with
  | none => (.error ⟨401, "Not authenticated"⟩, db)
  | some user =>
    let r := deleteFirst
      (fun e => decide (e.id = entry_id) && decide (e.user_id = user.id))
      db.app_entries
    let db' := { db with app_entries := r.1 }
    if r.2 = 0 then (.error ⟨404, "App entry not found"⟩, db')
    else (.ok "App entry deleted successfully", db')

/-! ### Other notes -/

/-- The `$or` clause of the note search query (server.py:468). -/
def noteMatches (search : String) (e : OtherNote) : Bool :=
  containsCI e.title search || containsCI e.content search

/-- The full note query (owner scoping plus optional search). -/
def noteQuery (uid : String) (search : Option String) (e : OtherNote) : Bool :=
  decide (e.user_id = uid) &&
    (if truthy search then noteMatches (search.getD "") e else true)

/-- `create_note` (server.py:447); notes carry no secret field. -/
def create_note (db : DB) (now : Nat) (req : RequestCtx)
    (newId : String) (note : OtherNoteCreate) :
    Except HTTPError OtherNote × DB :=
  match get_current_user db now req with
  | none => (.error ⟨401, "Not authenticated"⟩, db)
  | some user =>
    let other_note : OtherNote :=
      { id := newId, user_id := user.id, title := note.title,
        content := note.content, created_at := now, updated_at := now }
    let db' := { db with other_notes := db.other_notes ++ [other_note] }
    (.ok other_note, db')

/-- `get_notes` (server.py:460). -/
def get_notes (db : DB) (now : Nat) (req : RequestCtx)
    (search : Option String) : Except HTTPError (List OtherNote) :=
  match get_current_user db now req with
  | none => .error ⟨401, "Not authenticated"⟩
  | some user =>
    let notes := ((db.other_notes.filter (noteQuery user.id search)) |> mongoSort
      (newestFirst OtherNote.created_at)).take 1000
    .ok notes

/-- `update_note` (server.py:476). -/
def update_note (db : DB) (now : Nat) (req : RequestCtx)
    (note_id : String) (note_update : OtherNoteCreate) :
    Except HTTPError OtherNote × DB :=
  match get_current_user db now req with
  | none => (.error ⟨401, "Not authenticated"⟩, db)
  | some user =>
    let r := updateFirst
      (fun e => decide (e.id = note_id) && decide (e.user_id = user.id))
      (fun e =>
        { e with title := note_update.title, content := note_update.content,
                 updated_at := now })
      db.other_notes
    let db' := { db with other_notes := r.1 }
    if r.2 = 0 then (.error ⟨404, "Note not found"⟩, db')
    else
      match db'.other_notes.find?
        (fun e => decide (e.id = note_id) && decide (e.user_id = user.id)) with
      | some updated_note => (.ok updated_note, db')
      | none => (.error ⟨500, "Internal Server Error"⟩, db')

/-- `delete_note` (server.py:496). -/
def delete_note (db : DB) (now : Nat) (req : RequestCtx)
    (note_id : String) : Except HTTPError String × DB :=
  match get_current_user db now req with
  | none => (.error ⟨401, "Not authenticated"⟩, db)
  | some user =>
    let r := deleteFirst
      (fun e => decide (e.id = note_id) && decide (e.user_id = user.id))
      db.other_notes
    let db' := { db with other_notes := r.1 }
    if r.2 = 0 then (.error ⟨404, "Note not found"⟩, db')
    else (.ok "Note deleted successfully", db')

/-- Equality of handler results is decidable (used to evaluate the
model on concrete inputs). -/
instance {ε : Type u} {α : Type v} [DecidableEq ε] [DecidableEq α] :
    DecidableEq (Except ε α) := fun x y =>
  match x, y with
  | .error a, .error b =>
    if h : a = b then isTrue (by rw [h]) else isFalse (fun hc => h (by injection hc))
  | .error _, .ok _ => isFalse (fun hc => Except.noConfusion hc)
  | .ok _, .error _ => isFalse (fun hc => Except.noConfusion hc)
  | .ok a, .ok b =>
    if h : a = b then isTrue (by rw [h]) else isFalse (fun hc => h (by injection hc))

/-! ### Concrete example world used by witnesses and counterexamples -/

def exFernet : Fernet := ⟨"K"⟩

def exUserA : User := ⟨"uidA", "a@example.com", "Alice", "picA", none, 0⟩

def exUserB : User := ⟨"uidB", "b@example.com", "Bob", "picB", none, 0⟩

def exSessionA : UserSession := ⟨"s1", "uidA", "tokA", 100, 0⟩

def exSessionB : UserSession := ⟨"s2", "uidB", "tokB", 100, 0⟩

def exWebsite : WebsiteEntry :=
  ⟨"w1", "uidA", "GitHub", "https://GitHub.com", "code", none, none, 1, 1⟩

def exWebsite2 : WebsiteEntry :=
  ⟨"w2", "uidA", "Example", "https://example.com", "misc", none, none, 0, 0⟩

def exAppEntry : AppEntry := ⟨"p1", "uidA", "Slack", "chat", some "alice", none, 1, 1⟩

def exNote : OtherNote := ⟨"n1", "uidA", "groceries", "milk", 1, 1⟩

def exDB : DB :=
  ⟨[exUserA, exUserB], [exSessionA, exSessionB], [exWebsite, exWebsite2],
    [exAppEntry], [exNote]⟩

def exReqA : RequestCtx := ⟨some "tokA", none⟩

def exReqB : RequestCtx := ⟨some "tokB", none⟩

def exGhostSession : UserSession := ⟨"s3", "ghost", "tokG", 100, 0⟩

def exDanglingDB : DB := ⟨[exUserA], [exGhostSession], [], [], []⟩

def exSiteCreate : WebsiteEntryCreate :=
  ⟨"GitLab", "https://gitlab.com", "code", some "me", some "secret1"⟩

def mkSite (i : Nat) : WebsiteEntry := ⟨"w", "uidA", "git", "", "", none, none, i, i⟩

def manySites : List WebsiteEntry := (List.range 1001).map mkSite

def bigDB : DB := ⟨[exUserA], [exSessionA], manySites, [], []⟩

/-! ### Cipher lemmas -/

lemma fernetMagic_data_ne_nil : fernetMagic.data ≠ [] := by decide

lemma fernetMagic_data_length : fernetMagic.data.length = 5 := by decide

lemma encryptTok_data (c : Fernet) (s : String) :
    (c.encryptTok s).data = fernetMagic.data ++ c.key.data ++ s.data := rfl

lemma encryptTok_ne_empty (c : Fernet) (s : String) : c.encryptTok s ≠ "" := by
  intro h
  have hd := congrArg String.data h
  rw [encryptTok_data] at hd
  have : fernetMagic.data = [] := (List.append_eq_nil.mp (List.append_eq_nil.mp hd).1).1
  exact fernetMagic_data_ne_nil this

lemma decryptTok?_encryptTok (c : Fernet) (s : String) :
    c.decryptTok? (c.encryptTok s) = some s := by
  show (if (c.encryptTok s).data.take (fernetMagic.data ++ c.key.data).length
      = fernetMagic.data ++ c.key.data then some (String.mk ((c.encryptTok s).data.drop
        (fernetMagic.data ++ c.key.data).length)) else none) = some s
  rw [encryptTok_data, List.take_left, List.drop_left, if_pos rfl]

lemma decrypt_encrypt (c : Fernet) (s : String) (h : s ≠ "") :
    decrypt_data c (encrypt_data c s) = s := by
  rw [encrypt_data, if_neg h, decrypt_data, if_neg (encryptTok_ne_empty c s),
    decryptTok?_encryptTok]

lemma encrypt_data_ne_self (c : Fernet) (s : String) (h : s ≠ "") :
    encrypt_data c s ≠ s := by
  rw [encrypt_data, if_neg h]
  intro heq
  have hd := congrArg String.data heq
  rw [encryptTok_data] at hd
  have hlen := congrArg List.length hd
  simp only [List.length_append, fernetMagic_data_length] at hlen
  omega

lemma encrypt_data_ne_empty (c : Fernet) (s : String) (h : s ≠ "") :
    encrypt_data c s ≠ "" := by
  rw [encrypt_data, if_neg h]
  exact encryptTok_ne_empty c s

/-! ### PasswordHasher lemmas -/

lemma hash_password_ne_empty (salt : Char) (p : String) :
    hash_password salt p ≠ "" := by
  intro h
  have hd := congrArg String.data h
  simp [hash_password] at hd

lemma verify_password_hash_password (salt : Char) (p q : String) :
    verify_password q (hash_password salt p) = true ↔ q = p := by
  show decide (p.data = q.data) = true ↔ q = p
  simp [String.ext_iff, eq_comm]

/-! ### Store lemmas -/

lemma updateFirst_eq_of_forall_neg (p : α → Bool) (f : α → α) (l : List α)
    (h : ∀ a ∈ l, p a = false) : updateFirst p f l = (l, 0) := by
  induction l with
  | nil => rfl
  | cons a t ih =>
    have ha : p a = false := h a (by simp)
    rw [updateFirst, if_neg (by simp [ha])]
    rw [ih (fun x hx => h x (by simp [hx]))]

lemma deleteFirst_eq_of_forall_neg (p : α → Bool) (l : List α)
    (h : ∀ a ∈ l, p a = false) : deleteFirst p l = (l, 0) := by
  induction l with
  | nil => rfl
  | cons a t ih =>
    have ha : p a = false := h a (by simp)
    rw [deleteFirst, if_neg (by simp [ha])]
    rw [ih (fun x hx => h x (by simp [hx]))]

lemma find?_fst_updateFirst (p : α → Bool) (f : α → α) (l : List α)
    (hf : ∀ a, p a = true → p (f a) = true) :
    (updateFirst p f l).1.find? p = (l.find? p).map f := by
  induction l with
  | nil => rfl
  | cons a t ih =>
    by_cases ha : p a = true
    · rw [updateFirst, if_pos ha]
      simp only [List.find?_cons_of_pos _ ha, List.find?_cons_of_pos _ (hf a ha),
        Option.map_some']
    · have ha' : p a = false := by simpa using ha
      rw [updateFirst, if_neg (by simp [ha'])]
      rw [List.find?_cons_of_neg _ ha, List.find?_cons_of_neg _ ha]
      exact ih

/-! ### Listing-pipeline lemmas -/

lemma mem_insertLe {le : α → α → Bool} {x a : α} {l : List α} :
    x ∈ insertLe le a l ↔ x = a ∨ x ∈ l := by
  induction l with
  | nil => simp [insertLe]
  | cons b t ih =>
    unfold insertLe
    split
    · simp
    · simp only [List.mem_cons, ih]
      tauto

lemma mem_mongoSort {le : α → α → Bool} {x : α} {l : List α} :
    x ∈ mongoSort le l ↔ x ∈ l := by
  induction l with
  | nil => simp [mongoSort]
  | cons a t ih => simp [mongoSort, mem_insertLe, ih]

lemma length_insertLe (le : α → α → Bool) (a : α) (l : List α) :
    (insertLe le a l).length = l.length + 1 := by
  induction l with
  | nil => rfl
  | cons b t ih =>
    unfold insertLe
    split
    · rfl
    · simp [ih]

lemma length_mongoSort {le : α → α → Bool} {l : List α} :
    (mongoSort le l).length = l.length := by
  induction l with
  | nil => rfl
  | cons a t ih => simp [mongoSort, length_insertLe, ih]

lemma mem_pipeline (l : List α) (q : α → Bool) (le : α → α → Bool) (d : α → α)
    (r : α) (h : r ∈ (((l.filter q) |> mongoSort le).take 1000).map d) :
    ∃ e, e ∈ l ∧ q e = true ∧ r = d e := by
  rcases List.mem_map.mp h with ⟨x, hx, rfl⟩
  have hx' := mem_mongoSort.mp (List.mem_of_mem_take hx)
  have hm := List.mem_filter.mp hx'
  exact ⟨x, hm.1, hm.2, rfl⟩

lemma mem_pipeline_iff (l : List α) (q : α → Bool) (le : α → α → Bool) (d : α → α)
    (hcap : (l.filter q).length ≤ 1000) (r : α) :
    r ∈ (((l.filter q) |> mongoSort le).take 1000).map d ↔
      ∃ e, e ∈ l ∧ q e = true ∧ r = d e := by
  constructor
  · exact mem_pipeline l q le d r
  · rintro ⟨e, hel, hq, rfl⟩
    rw [List.take_of_length_le (by rw [length_mongoSort]; exact hcap)]
    exact List.mem_map.mpr ⟨e, mem_mongoSort.mpr (List.mem_filter.mpr ⟨hel, hq⟩), rfl⟩

lemma decryptWebsite_user_id (c : Fernet) (e : WebsiteEntry) :
    (decryptWebsite c e).user_id = e.user_id := by
  unfold decryptWebsite
  split <;> rfl

lemma decryptApp_user_id (c : Fernet) (e : AppEntry) :
    (decryptApp c e).user_id = e.user_id := by
  unfold decryptApp
  split <;> rfl

/-! ### Session-resolution lemmas -/

lemma truthy_some (s : String) (h : s ≠ "") : truthy (some s) = true := by
  simp [truthy, h]

lemma presented_token_cookie (tok : String) (h : tok ≠ "") (a : Option String) :
    presented_token ⟨some tok, a⟩ = some tok := by
  simp [presented_token, truthy, h]

lemma get_current_user_eq_some_iff (db : DB) (now : Nat) (req : RequestCtx) (u : User) :
    get_current_user db now req = some u ↔
      ∃ tok session, presented_token req = some tok ∧
        db.user_sessions.find? (fun s => decide (s.session_token = tok)) = some session ∧
        now ≤ session.expires_at ∧
        db.users.find? (fun x => decide (x.id = session.user_id)) = some u := by
  cases hp : presented_token req with
  | none => simp [get_current_user, hp]
  | some tok =>
    cases hs : db.user_sessions.find? (fun s => decide (s.session_token = tok)) with
    | none => simp [get_current_user, hp, hs]
    | some session =>
      by_cases hexp : now > session.expires_at
      · simp [get_current_user, hp, hs, hexp, Nat.not_le.mpr hexp]
      · cases hu : db.users.find? (fun x => decide (x.id = session.user_id)) with
        | none => simp [get_current_user, hp, hs, hexp, hu]
        | some u' =>
          simp only [get_current_user, hp, hs, if_neg hexp, hu]
          constructor
          · intro h
            injection h with h'
            exact ⟨tok, session, rfl, hs, Nat.le_of_not_lt hexp, by rw [hu, h']⟩
          · rintro ⟨tok', session', hp', hs', hle', hu'⟩
            injection hp' with h1
            subst h1
            rw [hs] at hs'
            injection hs' with h2
            subst h2
            rw [hu] at hu'
            exact hu'

/-! ### C6 — cipher round-trip -/

/-- C6: for every non-empty string `s`, decrypting the result of
encrypting `s` under the process's cipher key returns `s`. -/
theorem cipher_roundtrip (c : Fernet) (s : String) (h : s ≠ "") :
    decrypt_data c (encrypt_data c s) = s :=
  decrypt_encrypt c s h

theorem cipher_roundtrip_witness :
    ("secret1" : String) ≠ "" ∧
      decrypt_data exFernet (encrypt_data exFernet "secret1") = "secret1" :=
  ⟨by decide, cipher_roundtrip exFernet "secret1" (by decide)⟩

/-! ### C7 — decrypt fail-open totality -/

/-- C7: `decrypt_data` is a total function on strings (the bare `except`
means no exception reaches the caller), and on any input the modelled
Fernet layer rejects — malformed, or produced under a different key —
it returns the input string unchanged. -/
theorem decrypt_fail_open (c : Fernet) (t : String)
    (h : c.decryptTok? t = none) : decrypt_data c t = t := by
  by_cases ht : t = ""
  · rw [decrypt_data, if_pos ht]
  · rw [decrypt_data, if_neg ht, h]

theorem decrypt_fail_open_witness :
    exFernet.decryptTok? (encrypt_data ⟨"L"⟩ "x") = none ∧
      decrypt_data exFernet (encrypt_data ⟨"L"⟩ "x") = encrypt_data ⟨"L"⟩ "x" :=
  ⟨by decide, decrypt_fail_open exFernet (encrypt_data ⟨"L"⟩ "x") (by decide)⟩

/-! ### C3 — session validity boundary -/

/-- C3 (counterexample): a session stored with expiry timestamp 100,
checked at time 100 (`check time ≥ expiry`), still resolves to its
owner, because the code only rejects when `now > expires_at`; the claim
demands unauthenticated at any check time `≥` the expiry. -/
theorem session_boundary_counterexample :
    (100 : Nat) ≥ exSessionA.expires_at ∧
      get_current_user exDB 100 exReqA = some exUserA :=
  ⟨by decide, by decide⟩

/-- C3 (amended): a stored session with token `tok` and expiry `t`
resolves to its owning user at any check time `≤ t`, and to
unauthenticated (`none`) at any check time `> t`. -/
theorem session_validity (db : DB) (now : Nat) (tok : String)
    (session : UserSession) (u : User) (htok : tok ≠ "")
    (hs : db.user_sessions.find? (fun s => decide (s.session_token = tok)) = some session)
    (hu : db.users.find? (fun x => decide (x.id = session.user_id)) = some u) :
    (now ≤ session.expires_at → get_current_user db now ⟨some tok, none⟩ = some u) ∧
    (session.expires_at < now → get_current_user db now ⟨some tok, none⟩ = none) := by
  constructor
  · intro hle
    exact (get_current_user_eq_some_iff db now ⟨some tok, none⟩ u).mpr
      ⟨tok, session, presented_token_cookie tok htok none, hs, hle, hu⟩
  · intro hlt
    simp [get_current_user, presented_token_cookie tok htok none, hs, hlt]

theorem session_validity_witness :
    get_current_user exDB 50 exReqA = some exUserA ∧
      get_current_user exDB 101 exReqA = none :=
  ⟨(session_validity exDB 50 "tokA" exSessionA exUserA (by decide) (by decide)
      (by decide)).1 (by decide),
   (session_validity exDB 101 "tokA" exSessionA exUserA (by decide) (by decide)
      (by decide)).2 (by decide)⟩

/-! ### C10 — dangling-session handling -/

/-- C10: when the presented token matches a stored, unexpired session
whose owning user id references no existing user document, the caller
resolves to `none` — exactly the same value as for an absent or expired
token, so the request is treated as unauthenticated. -/
theorem dangling_session_unauthenticated (db : DB) (now : Nat) (req : RequestCtx)
    (tok : String) (session : UserSession)
    (hp : presented_token req = some tok)
    (hs : db.user_sessions.find? (fun s => decide (s.session_token = tok)) = some session)
    (hexp : now ≤ session.expires_at)
    (hu : db.users.find? (fun x => decide (x.id = session.user_id)) = none) :
    get_current_user db now req = none := by
  simp [get_current_user, hp, hs, Nat.not_lt.mpr hexp, hu]

theorem dangling_session_unauthenticated_witness :
    get_current_user exDanglingDB 10 ⟨some "tokG", none⟩ = none :=
  dangling_session_unauthenticated exDanglingDB 10 ⟨some "tokG", none⟩ "tokG"
    exGhostSession (by decide) (by decide) (by decide) (by decide)

/-! ### C4 — logout revocation -/

/-- C4 (counterexample): the token `tokA`, presented only via the bearer
authorization header, authenticates the caller, yet `logout` leaves the
store untouched — the matching session `exSessionA` survives — because
`logout` reads the token only from the cookie.  The claim demands that
the matching sessions be deleted regardless of how the token was
conveyed. -/
theorem logout_bearer_counterexample :
    get_current_user exDB 10 ⟨none, some "Bearer tokA"⟩ = some exUserA ∧
      (logout exDB 10 ⟨none, some "Bearer tokA"⟩).2 = exDB ∧
      exSessionA ∈ exDB.user_sessions ∧ exSessionA.session_token = "tokA" :=
  ⟨by decide, by decide, by decide, by decide⟩

/-- C4 (amended): when the caller authenticates and the token is
presented via the cookie, `logout` deletes exactly the stored sessions
whose token matches the cookie token (and no others); when the token is
presented only via the bearer authorization header, `logout` deletes no
session at all. -/
theorem logout_revocation (db : DB) (now : Nat) (tok : String) (u : User)
    (hauth : get_current_user db now ⟨some tok, none⟩ = some u) (htok : tok ≠ "") :
    (logout db now ⟨some tok, none⟩).2 =
      { db with user_sessions :=
          db.user_sessions.filter (fun s => !(decide (s.session_token = tok))) } ∧
    ∀ a : Option String, (logout db now ⟨none, a⟩).2 = db := by
  constructor
  · simp [logout, hauth, truthy, htok]
  · intro a
    unfold logout
    cases get_current_user db now ⟨none, a⟩ <;> rfl

theorem logout_revocation_witness :
    (logout exDB 10 exReqA).2 =
      { exDB with user_sessions :=
          exDB.user_sessions.filter (fun s => !(decide (s.session_token = "tokA"))) } ∧
      (logout exDB 10 ⟨none, some "Bearer tokA"⟩).2 = exDB :=
  ⟨(logout_revocation exDB 10 "tokA" exUserA (by decide) (by decide)).1,
   (logout_revocation exDB 10 "tokA" exUserA (by decide) (by decide)).2
     (some "Bearer tokA")⟩

/-! ### C2 — encryption at rest with plaintext return -/

/-- C2: an authenticated create call supplying a non-empty password
persists a record whose password field is the Cipher's ciphertext — a
string different from the supplied plaintext — while the entry returned
by the call carries the password decrypted back to the plaintext.
Stated for both record kinds with a secret field (Website and
Application; Note has none). -/
theorem create_encrypts_at_rest (c : Fernet) (db : DB) (now : Nat)
    (req : RequestCtx) (newId : String) (p : String) (user : User)
    (hauth : get_current_user db now req = some user) (hp : p ≠ "") :
    (∀ entry : WebsiteEntryCreate, entry.password = some p →
      (create_website_entry c db now req newId entry).2.website_entries =
        db.website_entries ++
          [{ id := newId, user_id := user.id, name := entry.name,
             link := entry.link, purpose := entry.purpose,
             login_id := entry.login_id, password := some (encrypt_data c p),
             created_at := now, updated_at := now }] ∧
      encrypt_data c p ≠ p ∧
      ∃ resp, (create_website_entry c db now req newId entry).1 = .ok resp ∧
        resp.password = some p) ∧
    (∀ entry : AppEntryCreate, entry.password = some p →
      (create_app_entry c db now req newId entry).2.app_entries =
        db.app_entries ++
          [{ id := newId, user_id := user.id, app_name := entry.app_name,
             purpose := entry.purpose, username := entry.username,
             password := some (encrypt_data c p),
             created_at := now, updated_at := now }] ∧
      encrypt_data c p ≠ p ∧
      ∃ resp, (create_app_entry c db now req newId entry).1 = .ok resp ∧
        resp.password = some p) := by
  constructor
  · intro entry he
    refine ⟨?_, encrypt_data_ne_self c p hp, ?_⟩
    · simp [create_website_entry, hauth, he, truthy_some p hp]
    · have hres : (create_website_entry c db now req newId entry).1 =
          .ok (decryptWebsite c
            { id := newId, user_id := user.id, name := entry.name,
              link := entry.link, purpose := entry.purpose,
              login_id := entry.login_id, password := some (encrypt_data c p),
              created_at := now, updated_at := now }) := by
        simp [create_website_entry, hauth, he, truthy_some p hp]
      refine ⟨_, hres, ?_⟩
      simp [decryptWebsite, truthy_some _ (encrypt_data_ne_empty c p hp),
        decrypt_encrypt c p hp]
  · intro entry he
    refine ⟨?_, encrypt_data_ne_self c p hp, ?_⟩
    · simp [create_app_entry, hauth, he, truthy_some p hp]
    · have hres : (create_app_entry c db now req newId entry).1 =
          .ok (decryptApp c
            { id := newId, user_id := user.id, app_name := entry.app_name,
              purpose := entry.purpose, username := entry.username,
              password := some (encrypt_data c p),
              created_at := now, updated_at := now }) := by
        simp [create_app_entry, hauth, he, truthy_some p hp]
      refine ⟨_, hres, ?_⟩
      simp [decryptApp, truthy_some _ (encrypt_data_ne_empty c p hp),
        decrypt_encrypt c p hp]

theorem create_encrypts_at_rest_witness :
    (create_website_entry exFernet exDB 10 exReqA "w9" exSiteCreate).2.website_entries =
      exDB.website_entries ++
        [{ id := "w9", user_id := exUserA.id, name := exSiteCreate.name,
           link := exSiteCreate.link, purpose := exSiteCreate.purpose,
           login_id := exSiteCreate.login_id,
           password := some (encrypt_data exFernet "secret1"),
           created_at := 10, updated_at := 10 }] :=
  ((create_encrypts_at_rest exFernet exDB 10 exReqA "w9" "secret1" exUserA
    (by decide) (by decide)).1 exSiteCreate rfl).1

/-! ### C1 — ownership isolation -/

lemma websiteQuery_owner (uid : String) (search : Option String) (e : WebsiteEntry)
    (h : websiteQuery uid search e = true) : e.user_id = uid := by
  have := (Bool.and_eq_true _ _).mp h
  exact of_decide_eq_true this.1

lemma appQuery_owner (uid : String) (search : Option String) (e : AppEntry)
    (h : appQuery uid search e = true) : e.user_id = uid := by
  have := (Bool.and_eq_true _ _).mp h
  exact of_decide_eq_true this.1

lemma noteQuery_owner (uid : String) (search : Option String) (e : OtherNote)
    (h : noteQuery uid search e = true) : e.user_id = uid := by
  have := (Bool.and_eq_true _ _).mp h
  exact of_decide_eq_true this.1

/-- C1: for an authenticated caller `userB` and any vault entry of any
of the three kinds owned by a different user: `list` never returns the
entry (every returned element is owned by `userB`, and neither the
entry nor its decrypted image occurs); and, provided entry ids are not
duplicated in the collection, `update` and `delete` with that entry's
id fail with the same 404 NotFound an absent id produces, leaving the
store completely unchanged. -/
theorem ownership_isolation (c : Fernet) (db : DB) (now : Nat)
    (req : RequestCtx) (userB : User)
    (hauth : get_current_user db now req = some userB) :
    (∀ e ∈ db.website_entries, e.user_id ≠ userB.id →
      (∀ search l, get_website_entries c db now req search = .ok l →
        decryptWebsite c e ∉ l ∧ e ∉ l) ∧
      ((∀ x ∈ db.website_entries, x.id = e.id → x = e) →
        (∀ upd, update_website_entry c db now req e.id upd =
          (.error ⟨404, "Website entry not found"⟩, db)) ∧
        delete_website_entry db now req e.id =
          (.error ⟨404, "Website entry not found"⟩, db))) ∧
    (∀ e ∈ db.app_entries, e.user_id ≠ userB.id →
      (∀ search l, get_app_entries c db now req search = .ok l →
        decryptApp c e ∉ l ∧ e ∉ l) ∧
      ((∀ x ∈ db.app_entries, x.id = e.id → x = e) →
        (∀ upd, update_app_entry c db now req e.id upd =
          (.error ⟨404, "App entry not found"⟩, db)) ∧
        delete_app_entry db now req e.id =
          (.error ⟨404, "App entry not found"⟩, db))) ∧
    (∀ e ∈ db.other_notes, e.user_id ≠ userB.id →
      (∀ search l, get_notes db now req search = .ok l → e ∉ l) ∧
      ((∀ x ∈ db.other_notes, x.id = e.id → x = e) →
        (∀ upd, update_note db now req e.id upd =
          (.error ⟨404, "Note not found"⟩, db)) ∧
        delete_note db now req e.id = (.error ⟨404, "Note not found"⟩, db))) := by
  refine ⟨?_, ?_, ?_⟩
  · intro e _he hown
    constructor
    · intro search l hok
      have hl : l = (((db.website_entries.filter (websiteQuery userB.id search)) |> mongoSort
          (newestFirst WebsiteEntry.created_at)).take 1000).map (decryptWebsite c) := by
        simp only [get_website_entries, hauth, Except.ok.injEq] at hok
        exact hok.symm
      subst hl
      constructor
      · intro hmem
        rcases mem_pipeline _ _ _ _ _ hmem with ⟨e0, _, hq, heq⟩
        have h1 : e.user_id = e0.user_id := by
          have := congrArg WebsiteEntry.user_id heq
          rwa [decryptWebsite_user_id, decryptWebsite_user_id] at this
        exact hown (h1.trans (websiteQuery_owner _ _ _ hq))
      · intro hmem
        rcases mem_pipeline _ _ _ _ _ hmem with ⟨e0, _, hq, heq⟩
        have h1 : e.user_id = e0.user_id := by
          have := congrArg WebsiteEntry.user_id heq
          rwa [decryptWebsite_user_id] at this
        exact hown (h1.trans (websiteQuery_owner _ _ _ hq))
    · intro hid
      have hneg : ∀ x ∈ db.website_entries,
          (decide (x.id = e.id) && decide (x.user_id = userB.id)) = false := by
        intro x hx
        by_cases hxe : x.id = e.id
        · have hxeq := hid x hx hxe
          subst hxeq
          simp [hown]
        · simp [hxe]
      constructor
      · intro upd
        simp [update_website_entry, hauth,
          updateFirst_eq_of_forall_neg _ _ _ hneg]
      · simp [delete_website_entry, hauth,
          deleteFirst_eq_of_forall_neg _ _ hneg]
  · intro e _he hown
    constructor
    · intro search l hok
      have hl : l = (((db.app_entries.filter (appQuery userB.id search)) |> mongoSort
          (newestFirst AppEntry.created_at)).take 1000).map (decryptApp c) := by
        simp only [get_app_entries, hauth, Except.ok.injEq] at hok
        exact hok.symm
      subst hl
      constructor
      · intro hmem
        rcases mem_pipeline _ _ _ _ _ hmem with ⟨e0, _, hq, heq⟩
        have h1 : e.user_id = e0.user_id := by
          have := congrArg AppEntry.user_id heq
          rwa [decryptApp_user_id, decryptApp_user_id] at this
        exact hown (h1.trans (appQuery_owner _ _ _ hq))
      · intro hmem
        rcases mem_pipeline _ _ _ _ _ hmem with ⟨e0, _, hq, heq⟩
        have h1 : e.user_id = e0.user_id := by
          have := congrArg AppEntry.user_id heq
          rwa [decryptApp_user_id] at this
        exact hown (h1.trans (appQuery_owner _ _ _ hq))
    · intro hid
      have hneg : ∀ x ∈ db.app_entries,
          (decide (x.id = e.id) && decide (x.user_id = userB.id)) = false := by
        intro x hx
        by_cases hxe : x.id = e.id
        · have hxeq := hid x hx hxe
          subst hxeq
          simp [hown]
        · simp [hxe]
      constructor
      · intro upd
        simp [update_app_entry, hauth, updateFirst_eq_of_forall_neg _ _ _ hneg]
      · simp [delete_app_entry, hauth, deleteFirst_eq_of_forall_neg _ _ hneg]
  · intro e _he hown
    constructor
    · intro search l hok
      have hl : l = ((db.other_notes.filter (noteQuery userB.id search)) |> mongoSort
          (newestFirst OtherNote.created_at)).take 1000 := by
        simp only [get_notes, hauth, Except.ok.injEq] at hok
        exact hok.symm
      subst hl
      intro hmem
      have hm := List.mem_filter.mp (mem_mongoSort.mp (List.mem_of_mem_take hmem))
      exact hown (noteQuery_owner _ _ _ hm.2)
    · intro hid
      have hneg : ∀ x ∈ db.other_notes,
          (decide (x.id = e.id) && decide (x.user_id = userB.id)) = false := by
        intro x hx
        by_cases hxe : x.id = e.id
        · have hxeq := hid x hx hxe
          subst hxeq
          simp [hown]
        · simp [hxe]
      constructor
      · intro upd
        simp [update_note, hauth, updateFirst_eq_of_forall_neg _ _ _ hneg]
      · simp [delete_note, hauth, deleteFirst_eq_of_forall_neg _ _ hneg]

theorem ownership_isolation_witness :
    delete_website_entry exDB 10 exReqB "w1" =
      (.error ⟨404, "Website entry not found"⟩, exDB) ∧
    delete_app_entry exDB 10 exReqB "p1" =
      (.error ⟨404, "App entry not found"⟩, exDB) ∧
    delete_note exDB 10 exReqB "n1" = (.error ⟨404, "Note not found"⟩, exDB) := by
  have h := ownership_isolation exFernet exDB 10 exReqB exUserB (by decide)
  exact ⟨((h.1 exWebsite (by decide) (by decide)).2 (by decide)).2,
    ((h.2.1 exAppEntry (by decide) (by decide)).2 (by decide)).2,
    ((h.2.2 exNote (by decide) (by decide)).2 (by decide)).2⟩

/-! ### C8 — app-lock verify/remove contract -/

lemma get_current_user_after_users_update (db : DB) (now : Nat) (req : RequestCtx)
    (u : User) (f : User → User)
    (hauth : get_current_user db now req = some u)
    (hfid : ∀ x, (f x).id = x.id) :
    get_current_user
      { db with users := (updateFirst (fun x => decide (x.id = u.id)) f db.users).1 }
      now req = some (f u) := by
  rcases (get_current_user_eq_some_iff db now req u).mp hauth with
    ⟨tok, session, hp, hs, hle, hu⟩
  have hid : u.id = session.user_id := by
    have h1 := List.find?_some hu
    simpa using h1
  have hpred : (fun x : User => decide (x.id = session.user_id)) =
      (fun x : User => decide (x.id = u.id)) := by
    funext x
    rw [hid]
  have hu' : db.users.find? (fun x => decide (x.id = u.id)) = some u := by
    rw [← hpred]
    exact hu
  have hf : ∀ a : User, decide (a.id = u.id) = true → decide ((f a).id = u.id) = true := by
    intro a ha
    have : a.id = u.id := of_decide_eq_true ha
    rw [hfid a]
    exact decide_eq_true this
  have hfind : (updateFirst (fun x => decide (x.id = u.id)) f db.users).1.find?
      (fun x => decide (x.id = session.user_id)) = some (f u) := by
    rw [hpred, find?_fst_updateFirst _ _ _ hf, hu']
    rfl
  exact (get_current_user_eq_some_iff _ now req (f u)).mpr
    ⟨tok, session, hp, hs, hle, hfind⟩

/-- C8: after an authenticated `setLock(p)`, `verifyLock` with a wrong
password fails with the invalid-app-lock client error while `verifyLock(p)`
succeeds, neither touching the store (`verify_app_lock` performs no
write); after `removeLock(p)` succeeds, `verifyLock(p)` fails with the
no-lock-configured client error. -/
theorem app_lock_contract (db : DB) (now : Nat) (req : RequestCtx) (salt : Char)
    (p q : String) (u : User)
    (hauth : get_current_user db now req = some u) (hq : q ≠ p) :
    verify_app_lock (set_app_lock db now req salt p).2 now req q =
      .error ⟨400, "Invalid password"⟩ ∧
    verify_app_lock (set_app_lock db now req salt p).2 now req p =
      .ok "App lock verified" ∧
    (remove_app_lock (set_app_lock db now req salt p).2 now req p).1 =
      .ok "App lock removed" ∧
    verify_app_lock (remove_app_lock (set_app_lock db now req salt p).2 now req p).2
      now req p = .error ⟨400, "No app lock set"⟩ := by
  have hdb2 : (set_app_lock db now req salt p).2 =
      { db with users := (updateFirst (fun x => decide (x.id = u.id))
          (fun x => { x with app_lock_hash := some (hash_password salt p) })
          db.users).1 } := by
    simp [set_app_lock, hauth]
  have hauth2 : get_current_user (set_app_lock db now req salt p).2 now req =
      some { u with app_lock_hash := some (hash_password salt p) } := by
    rw [hdb2]
    exact get_current_user_after_users_update db now req u _ hauth (fun x => rfl)
  have htrh : truthy (some (hash_password salt p)) = true :=
    truthy_some _ (hash_password_ne_empty salt p)
  have hvq : verify_password q (hash_password salt p) = false := by
    rw [← Bool.not_eq_true]
    intro hv
    exact hq ((verify_password_hash_password salt p q).mp hv)
  have hvp : verify_password p (hash_password salt p) = true :=
    (verify_password_hash_password salt p p).mpr rfl
  refine ⟨?_, ?_, ?_, ?_⟩
  · simp [verify_app_lock, hauth2, htrh, hvq]
  · simp [verify_app_lock, hauth2, htrh, hvp]
  · simp [remove_app_lock, hauth2, htrh, hvp]
  · have hdb3 : (remove_app_lock (set_app_lock db now req salt p).2 now req p).2 =
        { (set_app_lock db now req salt p).2 with users :=
            (updateFirst
              (fun x => decide (x.id =
                ({ u with app_lock_hash := some (hash_password salt p) } : User).id))
              (fun x => { x with app_lock_hash := none })
              (set_app_lock db now req salt p).2.users).1 } := by
      simp [remove_app_lock, hauth2, htrh, hvp]
    have hauth3 : get_current_user
        (remove_app_lock (set_app_lock db now req salt p).2 now req p).2 now req =
        some { u with app_lock_hash := none } := by
      rw [hdb3]
      exact get_current_user_after_users_update _ now req _
        (fun x => { x with app_lock_hash := none }) hauth2 (fun x => rfl)
    simp [verify_app_lock, hauth3, truthy]

theorem app_lock_contract_witness :
    verify_app_lock (set_app_lock exDB 10 exReqA 'S' "1234").2 10 exReqA "wrong" =
      .error ⟨400, "Invalid password"⟩ ∧
    verify_app_lock (set_app_lock exDB 10 exReqA 'S' "1234").2 10 exReqA "1234" =
      .ok "App lock verified" ∧
    (remove_app_lock (set_app_lock exDB 10 exReqA 'S' "1234").2 10 exReqA "1234").1 =
      .ok "App lock removed" ∧
    verify_app_lock
      (remove_app_lock (set_app_lock exDB 10 exReqA 'S' "1234").2 10 exReqA "1234").2
      10 exReqA "1234" = .error ⟨400, "No app lock set"⟩ :=
  app_lock_contract exDB 10 exReqA 'S' "1234" "wrong" exUserA (by decide) (by decide)

/-! ### C9 — implicit 1000-entry list cap -/

/-- C9: every list call, on each of the three record kinds, returns at
most 1000 entries; the returned list is precisely the first 1000 of the
matching entries in newest-created-first order (entries past the cap
are silently dropped by `to_list(1000)`). -/
theorem list_cap (c : Fernet) (db : DB) (now : Nat) (req : RequestCtx)
    (search : Option String) :
    (∀ l, get_website_entries c db now req search = .ok l →
      l.length ≤ 1000 ∧
      ∃ user, get_current_user db now req = some user ∧
        l = (((db.website_entries.filter (websiteQuery user.id search)) |> mongoSort
          (newestFirst WebsiteEntry.created_at)).take 1000).map (decryptWebsite c)) ∧
    (∀ l, get_app_entries c db now req search = .ok l →
      l.length ≤ 1000 ∧
      ∃ user, get_current_user db now req = some user ∧
        l = (((db.app_entries.filter (appQuery user.id search)) |> mongoSort
          (newestFirst AppEntry.created_at)).take 1000).map (decryptApp c)) ∧
    (∀ l, get_notes db now req search = .ok l →
      l.length ≤ 1000 ∧
      ∃ user, get_current_user db now req = some user ∧
        l = ((db.other_notes.filter (noteQuery user.id search)) |> mongoSort
          (newestFirst OtherNote.created_at)).take 1000) := by
  refine ⟨?_, ?_, ?_⟩
  · intro l hok
    cases hauth : get_current_user db now req with
    | none => simp [get_website_entries, hauth] at hok
    | some user =>
      simp only [get_website_entries, hauth, Except.ok.injEq] at hok
      refine ⟨?_, user, rfl, hok.symm⟩
      rw [← hok]
      simp [List.length_take]
  · intro l hok
    cases hauth : get_current_user db now req with
    | none => simp [get_app_entries, hauth] at hok
    | some user =>
      simp only [get_app_entries, hauth, Except.ok.injEq] at hok
      refine ⟨?_, user, rfl, hok.symm⟩
      rw [← hok]
      simp [List.length_take]
  · intro l hok
    cases hauth : get_current_user db now req with
    | none => simp [get_notes, hauth] at hok
    | some user =>
      simp only [get_notes, hauth, Except.ok.injEq] at hok
      refine ⟨?_, user, rfl, hok.symm⟩
      rw [← hok]
      simp [List.length_take]

theorem list_cap_witness :
    get_website_entries exFernet exDB 10 exReqA none = .ok [exWebsite, exWebsite2] ∧
    ([exWebsite, exWebsite2] : List WebsiteEntry).length ≤ 1000 ∧
    get_notes exDB 10 exReqA none = .ok [exNote] ∧
    ([exNote] : List OtherNote).length ≤ 1000 :=
  ⟨by decide,
   ((list_cap exFernet exDB 10 exReqA none).1 [exWebsite, exWebsite2] (by decide)).1,
   by decide,
   ((list_cap exFernet exDB 10 exReqA none).2.2 [exNote] (by decide)).1⟩

/-! ### C5 — search semantics -/

/-- C5 (counterexample): a user owning 1001 pairwise distinct website
entries that all match the search term "git" (and are returned
verbatim, having no password to decrypt) receives only 1000 entries
from `list` — so `list` does not return exactly the matching set, as
`to_list(1000)` silently truncates. -/
theorem search_exactness_counterexample :
    bigDB.website_entries.filter (websiteQuery exUserA.id (some "git")) =
      bigDB.website_entries ∧
    bigDB.website_entries.length = 1001 ∧
    bigDB.website_entries.Nodup ∧
    bigDB.website_entries.map (decryptWebsite exFernet) = bigDB.website_entries ∧
    (get_website_entries exFernet bigDB 10 exReqA (some "git")).map List.length =
      .ok 1000 := by
  have hall : ∀ e ∈ bigDB.website_entries,
      websiteQuery exUserA.id (some "git") e = true := by
    intro e he
    rcases List.mem_map.mp he with ⟨i, _, rfl⟩
    exact (by decide : websiteQuery exUserA.id (some "git") (mkSite 0) = true)
  have hfilter : bigDB.website_entries.filter (websiteQuery exUserA.id (some "git")) =
      bigDB.website_entries := List.filter_eq_self.mpr hall
  have hlen : bigDB.website_entries.length = 1001 := by
    simp [bigDB, manySites]
  have hauth : get_current_user bigDB 10 exReqA = some exUserA := by decide
  refine ⟨hfilter, hlen, ?_, ?_, ?_⟩
  · have hinj : Function.Injective mkSite := by
      intro a b hab
      have := congrArg WebsiteEntry.created_at hab
      simpa [mkSite] using this
    exact (List.nodup_range 1001).map hinj
  · show manySites.map (decryptWebsite exFernet) = manySites
    rw [manySites, List.map_map]
    apply List.map_congr_left
    intro i _
    rfl
  · have hres : get_website_entries exFernet bigDB 10 exReqA (some "git") =
        .ok ((((bigDB.website_entries.filter
            (websiteQuery exUserA.id (some "git"))) |> mongoSort
          (newestFirst WebsiteEntry.created_at)).take 1000).map
            (decryptWebsite exFernet)) := by
      simp only [get_website_entries, hauth]
    rw [hres, hfilter]
    have h1 : (((bigDB.website_entries |> mongoSort
        (newestFirst WebsiteEntry.created_at)).take 1000).map
          (decryptWebsite exFernet)).length = 1000 := by
      rw [List.length_map, List.length_take, length_mongoSort, hlen]
      omega
    simp only [Except.map]
    rw [h1]

/-- C5 (amended): `list(user, term)` returns the first 1000 — in
newest-created-first order — of the entries owned by `user` in which at
least one designated plaintext field contains the term as a
case-insensitive substring (fields ORed), secrets decrypted on the way
out; in particular, whenever at most 1000 entries match, the result is
exactly the set of matching entries. -/
theorem search_semantics (c : Fernet) (db : DB) (now : Nat) (req : RequestCtx)
    (term : String) (user : User)
    (hauth : get_current_user db now req = some user) (hterm : term ≠ "") :
    (∀ l, get_website_entries c db now req (some term) = .ok l →
      (db.website_entries.filter (websiteQuery user.id (some term))).length ≤ 1000 →
      ∀ r, r ∈ l ↔ ∃ e, e ∈ db.website_entries ∧ e.user_id = user.id ∧
        websiteMatches term e = true ∧ r = decryptWebsite c e) ∧
    (∀ l, get_app_entries c db now req (some term) = .ok l →
      (db.app_entries.filter (appQuery user.id (some term))).length ≤ 1000 →
      ∀ r, r ∈ l ↔ ∃ e, e ∈ db.app_entries ∧ e.user_id = user.id ∧
        appMatches term e = true ∧ r = decryptApp c e) ∧
    (∀ l, get_notes db now req (some term) = .ok l →
      (db.other_notes.filter (noteQuery user.id (some term))).length ≤ 1000 →
      ∀ r, r ∈ l ↔ ∃ e, e ∈ db.other_notes ∧ e.user_id = user.id ∧
        noteMatches term e = true ∧ r = e) := by
  have htq : truthy (some term) = true := truthy_some term hterm
  refine ⟨?_, ?_, ?_⟩
  · intro l hok hcap r
    have hl : l = (((db.website_entries.filter (websiteQuery user.id (some term))) |> mongoSort
        (newestFirst WebsiteEntry.created_at)).take 1000).map (decryptWebsite c) := by
      simp only [get_website_entries, hauth, Except.ok.injEq] at hok
      exact hok.symm
    subst hl
    rw [mem_pipeline_iff _ _ _ _ hcap r]
    constructor
    · rintro ⟨e, hmem, hq, rfl⟩
      have hq' := (Bool.and_eq_true _ _).mp hq
      refine ⟨e, hmem, of_decide_eq_true hq'.1, ?_, rfl⟩
      rw [htq] at hq'
      simpa using hq'.2
    · rintro ⟨e, hmem, huid, hmatch, rfl⟩
      exact ⟨e, hmem, by simp [websiteQuery, huid, htq, hmatch], rfl⟩
  · intro l hok hcap r
    have hl : l = (((db.app_entries.filter (appQuery user.id (some term))) |> mongoSort
        (newestFirst AppEntry.created_at)).take 1000).map (decryptApp c) := by
      simp only [get_app_entries, hauth, Except.ok.injEq] at hok
      exact hok.symm
    subst hl
    rw [mem_pipeline_iff _ _ _ _ hcap r]
    constructor
    · rintro ⟨e, hmem, hq, rfl⟩
      have hq' := (Bool.and_eq_true _ _).mp hq
      refine ⟨e, hmem, of_decide_eq_true hq'.1, ?_, rfl⟩
      rw [htq] at hq'
      simpa using hq'.2
    · rintro ⟨e, hmem, huid, hmatch, rfl⟩
      exact ⟨e, hmem, by simp [appQuery, huid, htq, hmatch], rfl⟩
  · intro l hok hcap r
    have hl : l = ((db.other_notes.filter (noteQuery user.id (some term))) |> mongoSort
        (newestFirst OtherNote.created_at)).take 1000 := by
      simp only [get_notes, hauth, Except.ok.injEq] at hok
      exact hok.symm
    subst hl
    rw [List.take_of_length_le (by rw [length_mongoSort]; exact hcap)]
    rw [mem_mongoSort, List.mem_filter]
    constructor
    · rintro ⟨hmem, hq⟩
      have hq' := (Bool.and_eq_true _ _).mp hq
      refine ⟨r, hmem, of_decide_eq_true hq'.1, ?_, rfl⟩
      rw [htq] at hq'
      simpa using hq'.2
    · rintro ⟨e, hmem, huid, hmatch, rfl⟩
      exact ⟨hmem, by simp [noteQuery, huid, htq, hmatch]⟩

theorem search_semantics_witness :
    get_website_entries exFernet exDB 10 exReqA (some "git") = .ok [exWebsite] ∧
    exWebsite ∈ ([exWebsite] : List WebsiteEntry) :=
  ⟨by decide,
   ((search_semantics exFernet exDB 10 exReqA "git" exUserA (by decide)
      (by decide)).1 [exWebsite] (by decide) (by decide) exWebsite).mpr
     ⟨exWebsite, by decide, by decide, by decide, by decide⟩⟩

end RemindSave
